import Mathlib

/-!
Verification of the Kobon-triangle search engine.

The embedding below translates the geometric evaluation engine
(`geometry.py`, class `KobonSolver`) and the simulated-annealing search
engine (`optimizer.py`, class `Optimizer`) into Lean.

Modelling conventions:
* Machine floating-point numbers are modelled as exact rationals `ℚ`;
  the numeric literals `1e-10`, `1e-9`, `1e-6` become the exact rationals
  `1/10^10`, `1/10^9`, `1/10^6`.
* `np.linalg.norm(v1 - v2) < 1e-6` (a Euclidean distance test) is modelled
  square-free: for nonnegative reals, `‖d‖ < t ↔ ‖d‖² < t²`, so the test
  becomes `distSq v1 v2 < (1/10^6)^2`.
* NumPy arrays of shape (N,3) become `List Line`; the N×N intersection
  tables become functions of two `Nat` indices (out-of-range indices read
  the placeholder line `⟨0,0,0⟩`, which is never reached by the algorithms,
  all of which only index below the list length).
* The transcendental pieces of the optimizer — `np.exp` and the cooling
  schedule `T_start * (T_end/T_start) ** (i/iterations)` — are abstracted
  as function parameters (`expf : ℚ → ℚ`, `Temp : Nat → ℚ`), and the
  pseudo-random draws (`np.random.normal` perturbations and
  `np.random.rand()` uniforms) as input streams `noises : Nat → List Line`
  and `us : Nat → ℚ`.  The control flow around them is translated exactly.
-/

namespace Kobon

/-- A line `a*x + b*y + c = 0`: one row of the `(N, 3)` coefficient array. -/
structure Line where
  a : ℚ
  b : ℚ
  c : ℚ
deriving DecidableEq

/-- Row `i` of the line array; out-of-range reads give the degenerate
placeholder `⟨0,0,0⟩` (never reached by the in-range algorithms). -/
def getLine (lines : List Line) (i : Nat) : Line :=
  lines.getD i ⟨0, 0, 0⟩

/-- `x_homo = b1*c2 - c1*b2` (geometry.py line 45). -/
def crossX (l1 l2 : Line) : ℚ := l1.b * l2.c - l1.c * l2.b

/-- `y_homo = c1*a2 - a1*c2` (geometry.py line 46). -/
def crossY (l1 l2 : Line) : ℚ := l1.c * l2.a - l1.a * l2.c

/-- `w = a1*b2 - b1*a2` (geometry.py line 47). -/
def crossW (l1 l2 : Line) : ℚ := l1.a * l2.b - l1.b * l2.a

/-- Parallelism tolerance `1e-10` of `compute_intersections`. -/
def epsPar : ℚ := 1 / 10 ^ 10

/-- Vertex-coincidence tolerance `1e-6` of `find_triangles`, squared
(the code compares a Euclidean norm against `1e-6`; we compare the
squared norm against `(1e-6)^2`). -/
def epsVert2 : ℚ := 1 / 10 ^ 12

/-- Separation-test tolerance `eps = 1e-9` of `is_valid_triangle`. -/
def epsSep : ℚ := 1 / 10 ^ 9

/-- Homogeneous `w` component for the pair of rows `(i, j)`. -/
def wOf (lines : List Line) (i j : Nat) : ℚ :=
  crossW (getLine lines i) (getLine lines j)

/-- Entry `(i, j)` of `valid_mask`: `np.abs(w) > 1e-10`, with the diagonal
forced to `False` (geometry.py lines 52–56).  For `i = j` the cross
product has `w = 0` anyway, so conjoining `i ≠ j` is exactly the
diagonal assignment. -/
def validMask (lines : List Line) (i j : Nat) : Bool :=
  decide (i ≠ j) && decide (epsPar < |wOf lines i j|)

/-- `safe_w = np.where(valid_mask, w, 1.0)` (geometry.py line 67). -/
def safeW (lines : List Line) (i j : Nat) : ℚ :=
  if validMask lines i j then wOf lines i j else 1

/-- Entry `(i, j)` of the point table:
`points[:,:,0] = x_homo / safe_w`, `points[:,:,1] = y_homo / safe_w`
(geometry.py lines 75–76). -/
def pointAt (lines : List Line) (i j : Nat) : ℚ × ℚ :=
  (crossX (getLine lines i) (getLine lines j) / safeW lines i j,
   crossY (getLine lines i) (getLine lines j) / safeW lines i j)

/-- Squared Euclidean distance between two stored points (model of
`np.linalg.norm(v1 - v2)`, squared). -/
def distSq (v1 v2 : ℚ × ℚ) : ℚ :=
  (v1.1 - v2.1) ^ 2 + (v1.2 - v2.2) ^ 2

/-- Signed value of line `m` at a vertex: the entry `a_m*x + b_m*y + c_m`
of `evals = other_lines @ verts_h.T` (geometry.py line 140). -/
def lineEval (m : Line) (v : ℚ × ℚ) : ℚ :=
  m.a * v.1 + m.b * v.2 + m.c

/-- Row minimum of `evals` over the three vertices
(`min_vals = np.min(evals, axis=1)`, geometry.py line 155). -/
def minEval (m : Line) (v1 v2 v3 : ℚ × ℚ) : ℚ :=
  min (min (lineEval m v1) (lineEval m v2)) (lineEval m v3)

/-- Row maximum of `evals` over the three vertices
(`max_vals = np.max(evals, axis=1)`, geometry.py line 156). -/
def maxEval (m : Line) (v1 v2 v3 : ℚ × ℚ) : ℚ :=
  max (max (lineEval m v1) (lineEval m v2)) (lineEval m v3)

/-- `cuts = (min_vals < -eps) & (max_vals > eps)` (geometry.py line 159). -/
def cutsB (m : Line) (v1 v2 v3 : ℚ × ℚ) : Bool :=
  decide (minEval m v1 v2 v3 < -epsSep ∧ epsSep < maxEval m v1 v2 v3)

/-- `KobonSolver.is_valid_triangle` (geometry.py lines 112–165): the
triangle on vertices `v1, v2, v3` is valid iff no line whose index is
not in `{i, j, k}` cuts it.  The boolean mask `mask[[i,j,k]] = False`
followed by `np.any(cuts)` over `lines[mask]` is rendered as a bounded
`all` over the index range that skips `i`, `j`, `k`. -/
def is_valid_triangle (lines : List Line) (i j k : Nat)
    (v1 v2 v3 : ℚ × ℚ) : Bool :=
  (List.range lines.length).all fun m =>
    if m = i ∨ m = j ∨ m = k then true
    else ! cutsB (getLine lines m) v1 v2 v3

/-- `combinations(range(n), 3)` (geometry.py line 90): all index triples
`(i, j, k)` with `i < j < k < n`, in lexicographic order. -/
def triples (n : Nat) : List (Nat × Nat × Nat) :=
  (((List.range n).flatMap fun i =>
    (List.range n).flatMap fun j =>
      (List.range n).map fun k => (i, j, k)).filter
    fun t => decide (t.1 < t.2.1 ∧ t.2.1 < t.2.2))

/-- Ordered pair helper for `sort3`. -/
def sort2 (a b : Nat) : Nat × Nat :=
  if a ≤ b then (a, b) else (b, a)

/-- `tuple(sorted((i, j, k)))` (geometry.py line 108), as a three-element
sorting network. -/
def sort3 (t : Nat × Nat × Nat) : Nat × Nat × Nat :=
  let p1 := sort2 t.1 t.2.1
  let p2 := sort2 p1.2 t.2.2
  let p3 := sort2 p1.1 p2.1
  (p3.1, p3.2, p2.2)

/-- The body of the triple loop of `find_triangles` (geometry.py lines
90–108), as the predicate deciding whether the triple survives all three
`continue` guards and the validity test. -/
def tripleOK (lines : List Line) (t : Nat × Nat × Nat) : Bool :=
  validMask lines t.1 t.2.1 && validMask lines t.2.1 t.2.2 &&
    validMask lines t.2.2 t.1 &&
  (! decide (distSq (pointAt lines t.1 t.2.1) (pointAt lines t.2.1 t.2.2) < epsVert2)) &&
  (! decide (distSq (pointAt lines t.2.1 t.2.2) (pointAt lines t.2.2 t.1) < epsVert2)) &&
  (! decide (distSq (pointAt lines t.2.2 t.1) (pointAt lines t.1 t.2.1) < epsVert2)) &&
  is_valid_triangle lines t.1 t.2.1 t.2.2
    (pointAt lines t.1 t.2.1) (pointAt lines t.2.1 t.2.2) (pointAt lines t.2.2 t.1)

/-- `KobonSolver.find_triangles` (geometry.py lines 80–110): filter the
lexicographic triples through the guards and append `tuple(sorted(...))`. -/
def find_triangles (lines : List Line) : List (Nat × Nat × Nat) :=
  ((triples lines.length).filter (tripleOK lines)).map sort3

/-- `Optimizer.objective` (optimizer.py lines 25–28): the score is the
number of valid triangles. -/
def objective (lines : List Line) : Nat :=
  (find_triangles lines).length

/-- The local variables of the annealing loop of `Optimizer.optimize`
(optimizer.py lines 31–35): `current_state`, `current_score`,
`best_state`, `best_score`. -/
structure OptState where
  current : List Line
  currentScore : Nat
  best : List Line
  bestScore : Nat
deriving DecidableEq

/-- `candidate_state = current_state + np.random.normal(...)`
(optimizer.py line 47): elementwise sum of the state with one iteration's
noise matrix (the Gaussian draws are an input, see the module docstring). -/
def perturb (state noise : List Line) : List Line :=
  List.zipWith (fun l d => Line.mk (l.a + d.a) (l.b + d.b) (l.c + d.c))
    state noise

/-- One iteration of the annealing loop (optimizer.py lines 47–61), with
the candidate and its score written out in place of the Python locals:
accept when `delta > 0 or np.random.rand() < np.exp(delta / T)`; on
acceptance also update the best pair when `current_score > best_score`;
otherwise leave every loop variable unchanged.  `expf` abstracts
`np.exp`, `u` is this iteration's uniform draw, `T` this iteration's
temperature. -/
def optStep (expf : ℚ → ℚ) (T : ℚ) (noise : List Line) (u : ℚ)
    (s : OptState) : OptState :=
  if ((objective (perturb s.current noise) : Int) - (s.currentScore : Int) > 0 ∨
      u < expf ((((objective (perturb s.current noise) : Int) -
        (s.currentScore : Int) : Int) : ℚ) / T)) then
    if objective (perturb s.current noise) > s.bestScore then
      ⟨perturb s.current noise, objective (perturb s.current noise),
       perturb s.current noise, objective (perturb s.current noise)⟩
    else
      ⟨perturb s.current noise, objective (perturb s.current noise),
       s.best, s.bestScore⟩
  else s

/-- The loop state of `Optimizer.optimize` after `i` iterations, starting
from `current_state = init` with `current_score = objective(init)` and
`best = current` (optimizer.py lines 31–35); iteration `i` uses
temperature `Temp i` (abstracting the transcendental schedule
`T_start * (T_end/T_start) ** (i/iterations)`), noise matrix `noises i`
and uniform draw `us i`. -/
def optRun (expf : ℚ → ℚ) (Temp : Nat → ℚ) (noises : Nat → List Line)
    (us : Nat → ℚ) (init : List Line) : Nat → OptState
  | 0 => ⟨init, objective init, init, objective init⟩
  | i + 1 => optStep expf (Temp i) (noises i) (us i)
      (optRun expf Temp noises us init i)

/-- `Optimizer.optimize` (optimizer.py lines 30–63): run the loop for the
whole iteration budget and return `(best_state, best_score)`. -/
def optimize (expf : ℚ → ℚ) (Temp : Nat → ℚ) (noises : Nat → List Line)
    (us : Nat → ℚ) (iterations : Nat) (init : List Line) :
    List Line × Nat :=
  ((optRun expf Temp noises us init iterations).best,
   (optRun expf Temp noises us init iterations).bestScore)

/-- The LineSet normalization invariant `a^2 + b^2 = 1` that
`Optimizer.normalize_lines` establishes (optimizer.py lines 15–23). -/
def unitNormal (l : Line) : Prop :=
  l.a ^ 2 + l.b ^ 2 = 1

/-- The `Optimizer` object: its only data relevant to `optimize` is the
stored initial state `self.state` built in `__init__`
(optimizer.py lines 6–13). -/
structure Optimizer where
  n_lines : Nat
  state : List Line

/-- The method `Optimizer.optimize` as explicit state passing on the
object.  Every statement of the method body writes only local variables:
`current_state` starts as `self.state.copy()`, `candidate_state` is a
fresh array built by `+`, and `best_state` is created by `.copy()`;
no statement assigns `self.state` or mutates it in place
(`normalize_lines`, the only in-place mutator of the class, is not called
inside `optimize`).  The method therefore returns the object unchanged
alongside `(best_state, best_score)`. -/
def Optimizer.optimizeM (o : Optimizer) (expf : ℚ → ℚ) (Temp : Nat → ℚ)
    (noises : Nat → List Line) (us : Nat → ℚ) (iterations : Nat) :
    (List Line × Nat) × Optimizer :=
  (optimize expf Temp noises us iterations o.state, o)

/-- The `KobonSolver` object (geometry.py lines 4–10): holds the line
array. -/
structure KobonSolver where
  lines : List Line

/-- Evaluation as a method on the solver object: `find_triangles` reads
`self.lines`, draws no random numbers and writes nothing, so the object
comes back unchanged with the score and the triangle list. -/
def KobonSolver.evaluateM (s : KobonSolver) :
    (Nat × List (Nat × Nat × Nat)) × KobonSolver :=
  ((objective s.lines, find_triangles s.lines), s)

/-- The spec's known fixture: lines `(1,0,-1)`, `(0,1,-1)`, `(1,1,-3)`. -/
def lines3 : List Line := [⟨1, 0, -1⟩, ⟨0, 1, -1⟩, ⟨1, 1, -3⟩]

/-- Three concurrent lines through the origin:
`(1,0,0)`, `(0,1,0)`, `(1,1,0)`. -/
def concur3 : List Line := [⟨1, 0, 0⟩, ⟨0, 1, 0⟩, ⟨1, 1, 0⟩]

/-- A parallel pair: `x = 0` and `x + 5 = 0`. -/
def par2 : List Line := [⟨1, 0, 0⟩, ⟨1, 0, 5⟩]

/-- A degenerate line `(0,0,1)` next to an ordinary one. -/
def degen2 : List Line := [⟨0, 0, 1⟩, ⟨1, 0, 0⟩]

theorem mem_triples (n : Nat) (t : Nat × Nat × Nat) :
    t ∈ triples n ↔ t.1 < t.2.1 ∧ t.2.1 < t.2.2 ∧ t.2.2 < n := by
  obtain ⟨i, j, k⟩ := t
  simp only [triples, List.mem_filter, List.mem_flatMap, List.mem_map,
    List.mem_range, decide_eq_true_eq]
  constructor
  · rintro ⟨⟨a, ha, b, hb, c, hc, heq⟩, h1, h2⟩
    obtain ⟨rfl, rfl, rfl⟩ := Prod.mk.injEq .. ▸ heq
    exact ⟨h1, h2, hc⟩
  · rintro ⟨h1, h2, h3⟩
    exact ⟨⟨i, lt_trans (lt_trans h1 h2) h3, j, lt_trans h2 h3, k, h3, rfl⟩,
      h1, h2⟩

theorem sort3_eq_self (t : Nat × Nat × Nat) (h1 : t.1 ≤ t.2.1)
    (h2 : t.2.1 ≤ t.2.2) : sort3 t = t := by
  obtain ⟨a, b, c⟩ := t
  simp only [sort3, sort2] at *
  rw [if_pos h1]
  simp only
  rw [if_pos h2]
  simp only
  rw [if_pos h1]

theorem mem_find_triangles (lines : List Line) (t : Nat × Nat × Nat) :
    t ∈ find_triangles lines ↔
      t ∈ triples lines.length ∧ tripleOK lines t = true := by
  constructor
  · intro h
    simp only [find_triangles, List.mem_map, List.mem_filter] at h
    obtain ⟨u, ⟨hu, hok⟩, rfl⟩ := h
    have hs := (mem_triples _ u).mp hu
    rw [sort3_eq_self u (le_of_lt hs.1) (le_of_lt hs.2.1)]
    exact ⟨hu, hok⟩
  · rintro ⟨ht, hok⟩
    simp only [find_triangles, List.mem_map, List.mem_filter]
    have hs := (mem_triples _ t).mp ht
    exact ⟨t, ⟨ht, hok⟩, sort3_eq_self t (le_of_lt hs.1) (le_of_lt hs.2.1)⟩

theorem is_valid_triangle_iff (lines : List Line) (i j k : Nat)
    (v1 v2 v3 : ℚ × ℚ) :
    is_valid_triangle lines i j k v1 v2 v3 = true ↔
      ∀ m, m < lines.length → m ≠ i → m ≠ j → m ≠ k →
        ¬ (minEval (getLine lines m) v1 v2 v3 < -epsSep ∧
           epsSep < maxEval (getLine lines m) v1 v2 v3) := by
  simp only [is_valid_triangle, List.all_eq_true, List.mem_range]
  constructor
  · intro h m hm hi hj hk
    have hmem := h m hm
    rw [if_neg (by rintro (rfl | rfl | rfl) <;> simp_all)] at hmem
    rw [Bool.not_eq_true'] at hmem
    unfold cutsB at hmem
    exact of_decide_eq_false hmem
  · intro h m hm
    by_cases hc : m = i ∨ m = j ∨ m = k
    · rw [if_pos hc]
    · push_neg at hc
      rw [if_neg (by rintro (rfl | rfl | rfl) <;> simp_all)]
      rw [Bool.not_eq_true']
      unfold cutsB
      rw [decide_eq_false_iff_not]
      exact h m hm hc.1 hc.2.1 hc.2.2

theorem bestScore_mono_step (expf : ℚ → ℚ) (T : ℚ) (noise : List Line)
    (u : ℚ) (s : OptState) :
    s.bestScore ≤ (optStep expf T noise u s).bestScore := by
  unfold optStep
  split_ifs with h1 h2
  · exact Nat.le_of_lt h2
  · exact Nat.le_refl _
  · exact Nat.le_refl _

theorem bestScore_le_optRun (expf : ℚ → ℚ) (Temp : Nat → ℚ)
    (noises : Nat → List Line) (us : Nat → ℚ) (init : List Line) (n : Nat) :
    objective init ≤ (optRun expf Temp noises us init n).bestScore := by
  induction n with
  | zero => exact Nat.le_refl _
  | succ n ih =>
      exact le_trans ih (bestScore_mono_step expf (Temp n) (noises n) (us n) _)

/-- C8: evaluating the three-line LineSet `(1,0,-1)`, `(0,1,-1)`, `(1,1,-3)`
yields exactly one triangle, the sorted triple `(0,1,2)`, hence score 1. -/
theorem C8_fixture : find_triangles lines3 = [(0, 1, 2)] ∧ objective lines3 = 1 := by
  have h : find_triangles lines3 = [(0, 1, 2)] := by
    norm_num [find_triangles, triples, tripleOK, validMask, is_valid_triangle,
      pointAt, distSq, crossX, crossY, crossW, wOf, safeW, getLine,
      epsPar, epsVert2, epsSep, cutsB, minEval, maxEval, lineEval,
      sort3, sort2, List.range_succ, lines3]
  exact ⟨h, by unfold objective; rw [h]; rfl⟩

/-- C6: for every LineSet and every triple `i < j < k` whose pairwise
intersections are valid, if any two of the three candidate vertices
coincide within tolerance `1e-6` in Euclidean distance (equivalently,
squared distance below `1e-12`), the triple yields no triangle. -/
theorem C6_concur (lines : List Line) (i j k : Nat)
    (hij : i < j) (hjk : j < k)
    (hm1 : validMask lines i j = true) (hm2 : validMask lines j k = true)
    (hm3 : validMask lines k i = true)
    (hcoin : distSq (pointAt lines i j) (pointAt lines j k) < epsVert2 ∨
             distSq (pointAt lines j k) (pointAt lines k i) < epsVert2 ∨
             distSq (pointAt lines k i) (pointAt lines i j) < epsVert2) :
    (i, j, k) ∉ find_triangles lines := by
  rw [mem_find_triangles]
  rintro ⟨-, hok⟩
  unfold tripleOK at hok
  dsimp only at hok
  simp only [Bool.and_eq_true, Bool.not_eq_true',
    decide_eq_false_iff_not] at hok
  rcases hcoin with h | h | h
  · exact hok.1.1.1.2 h
  · exact hok.1.1.2 h
  · exact hok.1.2 h

/-- C6 witness: the concurrent lines `(1,0,0)`, `(0,1,0)`, `(1,1,0)` all
pass through the origin, so the triple `(0,1,2)` yields no triangle. -/
theorem C6_concur_witness : (0, 1, 2) ∉ find_triangles concur3 := by
  apply C6_concur concur3 0 1 2 (by norm_num) (by norm_num)
  · norm_num [validMask, wOf, crossW, getLine, concur3, epsPar]
  · norm_num [validMask, wOf, crossW, getLine, concur3, epsPar]
  · norm_num [validMask, wOf, crossW, getLine, concur3, epsPar]
  · left
    norm_num [distSq, pointAt, crossX, crossY, crossW, wOf, safeW, validMask,
      getLine, concur3, epsPar, epsVert2]

/-- C7 counterexample: for the parallel pair `x = 0`, `x + 5 = 0` the
validity mask is false and the table nonetheless stores `(0, -5)` at
entry `(0,1)` but `(0, 5)` at entry `(1,0)` — two points at distance 10,
so the stored points at `(i,j)` and `(j,i)` are not equal (within any
tolerance smaller than their distance). -/
theorem C7_cex :
    pointAt par2 0 1 = (0, -5) ∧ pointAt par2 1 0 = (0, 5) ∧
    pointAt par2 0 1 ≠ pointAt par2 1 0 := by
  norm_num [pointAt, crossX, crossY, safeW, validMask, wOf, crossW, getLine,
    par2, epsPar, Prod.mk.injEq]

/-- C7 (amended): the validity mask is symmetric in its two indices, and
whenever the mask holds at `(i,j)` the stored intersection points at
`(i,j)` and `(j,i)` are exactly equal.  (For pairs with a false mask the
stored placeholder values are negatives of each other and may differ.) -/
theorem C7_symmetry (lines : List Line) (i j : Nat) :
    validMask lines i j = validMask lines j i ∧
    (validMask lines i j = true → pointAt lines i j = pointAt lines j i) := by
  have hw : wOf lines j i = - wOf lines i j := by
    unfold wOf crossW; ring
  have hx : crossX (getLine lines j) (getLine lines i)
      = - crossX (getLine lines i) (getLine lines j) := by
    unfold crossX; ring
  have hy : crossY (getLine lines j) (getLine lines i)
      = - crossY (getLine lines i) (getLine lines j) := by
    unfold crossY; ring
  have hmask : validMask lines i j = validMask lines j i := by
    unfold validMask
    rw [hw, abs_neg]
    congr 1
    exact decide_eq_decide.mpr ne_comm
  refine ⟨hmask, fun h => ?_⟩
  have hji : validMask lines j i = true := hmask ▸ h
  unfold pointAt safeW
  rw [if_pos h, if_pos hji, hw, hx, hy, neg_div_neg_eq, neg_div_neg_eq]

/-- C7 witness: on the fixture lines, entry `(0,1)` has a true mask and
the stored points at `(0,1)` and `(1,0)` agree, as do the mask entries. -/
theorem C7_symmetry_witness :
    validMask lines3 0 1 = validMask lines3 1 0 ∧
    pointAt lines3 0 1 = pointAt lines3 1 0 := by
  have h := C7_symmetry lines3 0 1
  refine ⟨h.1, h.2 ?_⟩
  norm_num [validMask, wOf, crossW, getLine, lines3, epsPar]

/-- C5: the validity mask entry `(i,j)` is false when `i = j` or when
`|w| ≤ 1e-10`; the divisor actually used is never zero (`1.0` is
substituted for invalid entries, so every point-table entry is a defined
value); and a degenerate line `(0,0,c)` has every mask entry false and is
never part of a triangle reported by `find_triangles`. -/
theorem C5_guarded (lines : List Line) (i j : Nat) :
    ((i = j ∨ |wOf lines i j| ≤ epsPar) → validMask lines i j = false) ∧
    safeW lines i j ≠ 0 ∧
    ((getLine lines i).a = 0 ∧ (getLine lines i).b = 0 →
      validMask lines i j = false ∧ validMask lines j i = false ∧
      ∀ t ∈ find_triangles lines, i ≠ t.1 ∧ i ≠ t.2.1 ∧ i ≠ t.2.2) := by
  refine ⟨?_, ?_, ?_⟩
  · rintro (rfl | hle)
    · simp [validMask]
    · unfold validMask
      simp [not_lt.mpr hle]
  · unfold safeW
    split_ifs with h
    · unfold validMask at h
      rw [Bool.and_eq_true, decide_eq_true_eq, decide_eq_true_eq] at h
      intro h0
      rw [h0, abs_zero] at h
      norm_num [epsPar] at h
    · norm_num
  · rintro ⟨ha, hb⟩
    have hml : ∀ m, validMask lines i m = false := by
      intro m
      unfold validMask wOf crossW
      rw [ha, hb]
      norm_num [epsPar]
    have hmr : ∀ m, validMask lines m i = false := by
      intro m
      unfold validMask wOf crossW
      rw [ha, hb]
      norm_num [epsPar]
    refine ⟨hml j, hmr j, ?_⟩
    intro t ht
    obtain ⟨-, hok⟩ := (mem_find_triangles lines t).mp ht
    unfold tripleOK at hok
    simp only [Bool.and_eq_true] at hok
    obtain ⟨⟨⟨⟨⟨⟨h1, h2⟩, h3⟩, -⟩, -⟩, -⟩, -⟩ := hok
    refine ⟨fun h => ?_, fun h => ?_, fun h => ?_⟩
    · rw [← h, hml] at h1
      simp at h1
    · rw [← h, hmr] at h1
      simp at h1
    · rw [← h, hml] at h3
      simp at h3

/-- C5 witness: with the degenerate line `(0,0,1)` next to `(1,0,0)`,
entry `(0,1)` of the mask is false (its `|w| = 0 ≤ 1e-10`), the divisor
substituted for it is nonzero, and entry `(1,0)` is false as well. -/
theorem C5_guarded_witness :
    validMask degen2 0 1 = false ∧ safeW degen2 0 1 ≠ 0 ∧
    validMask degen2 1 0 = false := by
  have h := C5_guarded degen2 0 1
  refine ⟨h.1 (Or.inr ?_), h.2.1, (h.2.2 ?_).2.1⟩
  · norm_num [wOf, crossW, getLine, degen2, epsPar]
  · norm_num [getLine, degen2]

/-- C1: for every LineSet and triple `i < j < k` whose three pairwise
intersections are valid and whose vertices are pairwise distinct (not
within the coincidence tolerance), the triple is reported as a valid
Kobon triangle iff no other line `m` has the minimum of its three signed
values at the vertices strictly below `-1e-9` while the maximum is
strictly above `+1e-9`. -/
theorem C1_separation (lines : List Line) (i j k : Nat)
    (hij : i < j) (hjk : j < k) (hk : k < lines.length)
    (m1 : validMask lines i j = true) (m2 : validMask lines j k = true)
    (m3 : validMask lines k i = true)
    (d1 : ¬ distSq (pointAt lines i j) (pointAt lines j k) < epsVert2)
    (d2 : ¬ distSq (pointAt lines j k) (pointAt lines k i) < epsVert2)
    (d3 : ¬ distSq (pointAt lines k i) (pointAt lines i j) < epsVert2) :
    (i, j, k) ∈ find_triangles lines ↔
      ∀ m, m < lines.length → m ≠ i → m ≠ j → m ≠ k →
        ¬ (minEval (getLine lines m) (pointAt lines i j) (pointAt lines j k)
             (pointAt lines k i) < -epsSep ∧
           epsSep < maxEval (getLine lines m) (pointAt lines i j)
             (pointAt lines j k) (pointAt lines k i)) := by
  have hok : tripleOK lines (i, j, k) =
      is_valid_triangle lines i j k (pointAt lines i j) (pointAt lines j k)
        (pointAt lines k i) := by
    unfold tripleOK
    dsimp only
    simp [m1, m2, m3, d1, d2, d3]
  rw [mem_find_triangles, mem_triples, hok, is_valid_triangle_iff]
  simp [hij, hjk, hk]

/-- C1 witness: on the fixture LineSet the triple `(0,1,2)` satisfies all
the hypotheses, the separation condition holds vacuously (there is no
fourth line), and the triple is indeed reported. -/
theorem C1_separation_witness : (0, 1, 2) ∈ find_triangles lines3 := by
  have h := C1_separation lines3 0 1 2 (by norm_num) (by norm_num)
    (by norm_num [lines3])
    (by norm_num [validMask, wOf, crossW, getLine, lines3, epsPar])
    (by norm_num [validMask, wOf, crossW, getLine, lines3, epsPar])
    (by norm_num [validMask, wOf, crossW, getLine, lines3, epsPar])
    (by norm_num [distSq, pointAt, crossX, crossY, crossW, wOf, safeW,
      validMask, getLine, lines3, epsPar, epsVert2])
    (by norm_num [distSq, pointAt, crossX, crossY, crossW, wOf, safeW,
      validMask, getLine, lines3, epsPar, epsVert2])
    (by norm_num [distSq, pointAt, crossX, crossY, crossW, wOf, safeW,
      validMask, getLine, lines3, epsPar, epsVert2])
  refine h.mpr ?_
  intro m hm h0 h1 h2
  have : m < 3 := by simpa [lines3] using hm
  omega

/-- C2 counterexample: a one-iteration run from the single line `(1,0,0)`
with noise `(1,0,0)`, uniform draw `0` and `expf ≡ 1` accepts and
evaluates the raw candidate `(2,0,0)`, whose coefficients satisfy
`a² + b² = 4 ≠ 1`: the candidate is not renormalized before evaluation. -/
theorem C2_cex :
    (optRun (fun _ => 1) (fun _ => 1) (fun _ => [⟨1, 0, 0⟩]) (fun _ => 0)
      [⟨1, 0, 0⟩] 1).current = [⟨2, 0, 0⟩] ∧
    ¬ unitNormal ⟨2, 0, 0⟩ := by
  constructor
  · have hobj : ∀ l : Line, objective [l] = 0 := by
      intro l
      simp [objective, find_triangles, triples, List.range_succ]
    have h0 : (optRun (fun _ => 1) (fun _ => 1) (fun _ => [⟨1, 0, 0⟩])
        (fun _ => 0) [⟨1, 0, 0⟩] 0) = ⟨[⟨1, 0, 0⟩], 0, [⟨1, 0, 0⟩], 0⟩ := by
      unfold optRun
      rw [hobj]
    have h1 : (optRun (fun _ => 1) (fun _ => 1) (fun _ => [⟨1, 0, 0⟩])
        (fun _ => 0) [⟨1, 0, 0⟩] 1) =
        optStep (fun _ => 1) 1 [⟨1, 0, 0⟩] 0
          (optRun (fun _ => 1) (fun _ => 1) (fun _ => [⟨1, 0, 0⟩])
            (fun _ => 0) [⟨1, 0, 0⟩] 0) := rfl
    rw [h1, h0]
    norm_num [optStep, perturb, hobj]
  · norm_num [unitNormal]

/-- C2 (amended): candidates are evaluated raw — each optimize iteration
either leaves the loop state unchanged (rejection) or installs exactly
`current + noise` as the new current state, with no renormalization;
the `a² + b² = 1` invariant is imposed only on the initial state at
construction time. -/
theorem C2_raw (expf : ℚ → ℚ) (T : ℚ) (noise : List Line) (u : ℚ)
    (s : OptState) :
    optStep expf T noise u s = s ∨
    (optStep expf T noise u s).current = perturb s.current noise := by
  unfold optStep
  split_ifs with h1 h2
  · exact Or.inr rfl
  · exact Or.inr rfl
  · exact Or.inl rfl

/-- C3: the Metropolis rule — with `Δ = candidate_score − current_score`
and `u` the uniform draw, the candidate is installed (state and score)
exactly when `Δ > 0` or `u < expf (Δ/T)`; otherwise the whole loop state
is unchanged. -/
theorem C3_metropolis (expf : ℚ → ℚ) (T : ℚ) (noise : List Line) (u : ℚ)
    (s : OptState) :
    if ((objective (perturb s.current noise) : Int) - (s.currentScore : Int) > 0 ∨
        u < expf ((((objective (perturb s.current noise) : Int) -
          (s.currentScore : Int) : Int) : ℚ) / T)) then
      (optStep expf T noise u s).current = perturb s.current noise ∧
      (optStep expf T noise u s).currentScore = objective (perturb s.current noise)
    else optStep expf T noise u s = s := by
  unfold optStep
  split_ifs with h1 h2
  · exact ⟨rfl, rfl⟩
  · exact ⟨rfl, rfl⟩
  · rfl

/-- C3 witness: at a concrete accepting input (`Δ = 0`, `u = 0`,
`expf ≡ 1`, so `u < expf (Δ/T)`) the candidate is installed. -/
theorem C3_metropolis_witness :
    (optStep (fun _ => 1) 1 [⟨1, 0, 0⟩] 0
      ⟨[⟨1, 0, 0⟩], 0, [⟨1, 0, 0⟩], 0⟩).current = [⟨2, 0, 0⟩] := by
  have h := C3_metropolis (fun _ => 1) 1 [⟨1, 0, 0⟩] 0
    ⟨[⟨1, 0, 0⟩], 0, [⟨1, 0, 0⟩], 0⟩
  rw [if_pos (Or.inr (by norm_num))] at h
  rw [h.1]
  norm_num [perturb]

/-- C4: the returned best score of an optimize run is at least the score
of the initial LineSet, and the per-iteration best-score sequence is
non-decreasing. -/
theorem C4_best_monotonic (expf : ℚ → ℚ) (Temp : Nat → ℚ)
    (noises : Nat → List Line) (us : Nat → ℚ) (iterations : Nat)
    (init : List Line) :
    objective init ≤ (optimize expf Temp noises us iterations init).2 ∧
    ∀ i, (optRun expf Temp noises us init i).bestScore ≤
      (optRun expf Temp noises us init (i + 1)).bestScore :=
  ⟨bestScore_le_optRun expf Temp noises us init iterations,
   fun i => bestScore_mono_step expf (Temp i) (noises i) (us i) _⟩

/-- C9: evaluation is deterministic and effect-free — two solvers holding
the same LineSet return the same score and triangle list, and evaluation
hands the solver back with its lines unchanged (no randomness is drawn
and nothing is mutated). -/
theorem C9_deterministic (s t : KobonSolver) (h : s.lines = t.lines) :
    s.evaluateM.1 = t.evaluateM.1 ∧ (s.evaluateM.2).lines = s.lines := by
  refine ⟨?_, rfl⟩
  unfold KobonSolver.evaluateM
  rw [h]

/-- C9 witness: two solvers holding the fixture lines evaluate equal. -/
theorem C9_deterministic_witness :
    (KobonSolver.mk lines3).evaluateM.1 = (KobonSolver.mk lines3).evaluateM.1 ∧
    ((KobonSolver.mk lines3).evaluateM.2).lines = lines3 :=
  C9_deterministic (KobonSolver.mk lines3) (KobonSolver.mk lines3) rfl

/-- C10: `optimize` never modifies the stored initial state — the method
returns the object with `state` unchanged, and a second call on the
returned object behaves exactly as a call on the original object. -/
theorem C10_frame (o : Optimizer) (e1 e2 : ℚ → ℚ) (T1 T2 : Nat → ℚ)
    (n1 n2 : Nat → List Line) (u1 u2 : Nat → ℚ) (it1 it2 : Nat) :
    ((o.optimizeM e1 T1 n1 u1 it1).2).state = o.state ∧
    ((o.optimizeM e1 T1 n1 u1 it1).2).optimizeM e2 T2 n2 u2 it2 =
      o.optimizeM e2 T2 n2 u2 it2 :=
  ⟨rfl, rfl⟩

end Kobon
